import Mathlib

/-!
Shallow embedding of the PDF-toolbox pipeline code:
the page-by-page compress pipeline (`compressPDF` and its helpers), the
batch driver (`compressPDFs`), the merge tool (`mergePDFs`) and the
rotation-state updates (`rotateFile` / `rotatePage`).

Machine reals that the browser manipulates (viewport sizes, scale
factors, qualities) are modelled as rationals; page handles, blobs and
embedded images are modelled structurally.  Failure points of the
per-page pipeline (page render, canvas-to-blob encoding) are modelled by
oracle booleans carried on the abstract page.
-/

/-- `CompressionMode` from the compress helper module: the three named presets. -/
inductive CompressionMode where
  | extreme
  | normal
  | less
  deriving DecidableEq, Repr

/-- Image output formats supported by the canvas encoder. -/
inductive ImageFormat where
  | jpeg
  | png
  deriving DecidableEq, Repr

/-- `CompressionSettings`: quality, scale and format knobs of one preset. -/
structure CompressionSettings where
  imageQuality : ℚ
  scale : ℚ
  format : ImageFormat
  deriving DecidableEq, Repr

/-- The fixed preset table `compressionSettings` from the compress helper. -/
def compressionSettings : CompressionMode → CompressionSettings
  | CompressionMode.extreme => { imageQuality := 0.3, scale := 0.5, format := ImageFormat.jpeg }
  | CompressionMode.normal  => { imageQuality := 0.6, scale := 0.7, format := ImageFormat.jpeg }
  | CompressionMode.less    => { imageQuality := 0.85, scale := 0.9, format := ImageFormat.jpeg }

/-- An abstract input page: its original viewport dimensions plus oracles
telling whether `page.render` and `canvas.toBlob` succeed on it. -/
structure PageSpec where
  origWidth : ℚ
  origHeight : ℚ
  renderOk : Bool
  encodeOk : Bool
  deriving DecidableEq, Repr

/-- Page-level failures of the per-page pipeline. -/
inductive PipeError where
  | renderError
  | encodeError
  deriving DecidableEq, Repr

/-- A compressed image blob produced by `canvas.toBlob`: it records the
format and quality it was encoded with and the canvas dimensions. -/
structure Blob where
  format : ImageFormat
  quality : ℚ
  width : ℚ
  height : ℚ
  deriving DecidableEq, Repr

/-- The successful result of `renderAndCompressPage`: the blob together
with the viewport width and height it reports back. -/
structure RenderedImage where
  blob : Blob
  width : ℚ
  height : ℚ
  deriving DecidableEq, Repr

/-- The value `renderAndCompressPage` resolves with on success: the
viewport is `page.getViewport({scale})`, the canvas is sized to it, and
the blob is encoded at the preset's format and quality. -/
def renderedImage (settings : CompressionSettings) (page : PageSpec) : RenderedImage :=
  { blob := { format := settings.format
              quality := settings.imageQuality
              width := page.origWidth * settings.scale
              height := page.origHeight * settings.scale }
    width := page.origWidth * settings.scale
    height := page.origHeight * settings.scale }

/-- `renderAndCompressPage`: render the page into a canvas sized to the
scaled viewport, then encode the canvas.  `page.render` failure and
`canvas.toBlob` returning null both reject the promise. -/
def renderAndCompressPage (page : PageSpec) (settings : CompressionSettings) :
    Except PipeError RenderedImage :=
  if page.renderOk = false then Except.error PipeError.renderError
  else if page.encodeOk = false then Except.error PipeError.encodeError
  else Except.ok (renderedImage settings page)

/-- An image embedded into the output document: `embedJpg` or `embedPng`. -/
inductive EmbeddedImage where
  | jpg (blob : Blob)
  | png (blob : Blob)
  deriving DecidableEq, Repr

/-- The format branch of `compressPDF`: `embedJpg` when the preset format
is jpeg, `embedPng` otherwise. -/
def embedImage (settings : CompressionSettings) (blob : Blob) : EmbeddedImage :=
  if settings.format = ImageFormat.jpeg then EmbeddedImage.jpg blob
  else EmbeddedImage.png blob

/-- One page of the rebuilt document: the page box passed to `addPage`
and the draw rectangle passed to `drawImage`. -/
structure DrawnPage where
  pageWidth : ℚ
  pageHeight : ℚ
  image : EmbeddedImage
  drawX : ℚ
  drawY : ℚ
  drawWidth : ℚ
  drawHeight : ℚ
  deriving DecidableEq, Repr

/-- The page `compressPDF` appends for one successfully rendered image:
`addPage([width, height])` then `drawImage(image, {x:0, y:0, width, height})`. -/
def mkCompressedPage (settings : CompressionSettings) (r : RenderedImage) : DrawnPage :=
  { pageWidth := r.width
    pageHeight := r.height
    image := embedImage settings r.blob
    drawX := 0
    drawY := 0
    drawWidth := r.width
    drawHeight := r.height }

/-- The whole try-block body of the per-page loop, up to and including
`addPage`/`drawImage`: `none` when the page threw at render or encode. -/
def processPage (settings : CompressionSettings) (page : PageSpec) : Option DrawnPage :=
  match renderAndCompressPage page settings with
  | Except.error _ => none
  | Except.ok r => some (mkCompressedPage settings r)

/-- Whether the per-page pipeline succeeds on this page. -/
def pageSucceeds (page : PageSpec) : Bool :=
  page.renderOk && page.encodeOk

/-- Externally observable events of one `compressPDF` call: progress
callback invocations and the start of the final `save`. -/
inductive PipelineEvent where
  | progress (current : Nat) (total : Nat)
  | save
  deriving DecidableEq, Repr

/-- Options object passed to `newPdfDoc.save`. -/
structure SaveOptions where
  useObjectStreams : Bool
  addDefaultPage : Bool
  deriving DecidableEq, Repr

/-- The literal options `compressPDF` passes to `save`. -/
def compressSaveOptions : SaveOptions :=
  { useObjectStreams := true, addDefaultPage := false }

/-- A page of the serialized output document: an image page built by the
loop, or the blank letter-sized page `save` adds when `addDefaultPage`
is set and the document has no pages. -/
inductive OutputPage where
  | imagePage (p : DrawnPage)
  | blankPage (width : ℚ) (height : ℚ)
  deriving DecidableEq, Repr

/-- `save` semantics relevant here: with `addDefaultPage` set, an empty
document gets one blank US-letter page; otherwise pages pass through. -/
def saveDoc (opts : SaveOptions) (pages : List DrawnPage) : List OutputPage :=
  if opts.addDefaultPage && pages.isEmpty then [OutputPage.blankPage 612 792]
  else pages.map OutputPage.imagePage

/-- The per-page `for` loop of `compressPDF`, started at page number
`pageNum`: on success it appends the page and fires the progress
callback with `(pageNum, total)`; on failure it logs and continues. -/
def compressLoop (settings : CompressionSettings) (total : Nat) :
    Nat → List PageSpec → List DrawnPage × List PipelineEvent
  | _, [] => ([], [])
  | pageNum, page :: rest =>
    let tail := compressLoop settings total (pageNum + 1) rest
    match processPage settings page with
    | none => tail
    | some dp => (dp :: tail.1, PipelineEvent.progress pageNum total :: tail.2)

/-- The result of one `compressPDF` call: the pages of the saved output
document and the trace of observable events. -/
structure CompressResult where
  pages : List OutputPage
  events : List PipelineEvent
  deriving DecidableEq, Repr

/-- `compressPDF`: load the document (abstracted to its page list), run
the per-page loop over pages `1..numPages`, then save the new document. -/
def compressPDF (pdfFile : List PageSpec) (mode : CompressionMode) : CompressResult :=
  let settings := compressionSettings mode
  let totalPages := pdfFile.length
  let looped := compressLoop settings totalPages 1 pdfFile
  { pages := saveDoc compressSaveOptions looped.1
    events := looped.2 ++ [PipelineEvent.save] }

/-- 1-based page numbers, counted from `pageNum`, of the pages the
per-page loop processes successfully. -/
def successIndices : Nat → List PageSpec → List Nat
  | _, [] => []
  | pageNum, page :: rest =>
    if pageSucceeds page then pageNum :: successIndices (pageNum + 1) rest
    else successIndices (pageNum + 1) rest

/-- A document queued in the compress batch, abstracted to whether the
`handleCompressPDF` call on it resolves or throws. -/
structure BatchDoc where
  ok : Bool
  deriving DecidableEq, Repr

/-- Per-file status values of the compress route's file list. -/
inductive FileStatus where
  | pending
  | processing
  | completed
  | error
  deriving DecidableEq, Repr

/-- The `for` loop of `compressPDFs`, with `i` the index of the first
remaining document: a resolving document ends `completed` and is
downloaded; a throwing one is caught, marked `error`, and the loop
continues with the next document. -/
def compressBatchLoop : Nat → List BatchDoc → List FileStatus × List Nat
  | _, [] => ([], [])
  | i, d :: rest =>
    let tail := compressBatchLoop (i + 1) rest
    if d.ok then (FileStatus.completed :: tail.1, i :: tail.2)
    else (FileStatus.error :: tail.1, tail.2)

/-- Observable outcome of one `compressPDFs` call: whether the
empty-selection alert fired, the final status of each queued document,
the indices of the documents downloaded (in download order), and how
many documents were opened for processing. -/
structure BatchResult where
  userError : Bool
  statuses : List FileStatus
  downloads : List Nat
  opened : Nat
  deriving DecidableEq, Repr

/-- `compressPDFs`: alert and return when no file is selected, otherwise
process every queued document in order. -/
def compressPDFs (docs : List BatchDoc) : BatchResult :=
  if docs.length = 0 then
    { userError := true
      statuses := docs.map (fun _ => FileStatus.pending)
      downloads := []
      opened := 0 }
  else
    let looped := compressBatchLoop 0 docs
    { userError := false
      statuses := looped.1
      downloads := looped.2
      opened := docs.length }

/-- `pdf.getPageIndices()`: the indices `0..pageCount-1`. -/
def getPageIndices {α : Type} (pdf : List α) : List Nat :=
  List.range pdf.length

/-- `mergedPdf.copyPages(pdf, indices)`: copies of the pages of `pdf` at
the given indices, in index-list order. -/
def copyPages {α : Type} (pdf : List α) (indices : List Nat) : List α :=
  indices.filterMap (fun i => pdf[i]?)

/-- `mergedPdf.addPage(page)`: appends one page. -/
def addPage {α : Type} (doc : List α) (page : α) : List α :=
  doc ++ [page]

/-- The `for (const pdfFile of pdfFiles)` loop of `mergePDFs`: copy each
input document's pages and append them to the accumulator. -/
def mergeLoop {α : Type} : List α → List (List α) → List α
  | mergedPdf, [] => mergedPdf
  | mergedPdf, pdf :: rest =>
    let copiedPages := copyPages pdf (getPageIndices pdf)
    mergeLoop (copiedPages.foldl addPage mergedPdf) rest

/-- Observable outcome of one `mergePDFs` call: whether the too-few-files
alert fired, the merged document when one was produced, the file list
after the call, and how many input documents were opened. -/
structure MergeResult (α : Type) where
  userError : Bool
  merged : Option (List α)
  finalFiles : List (List α)
  opened : Nat
  deriving DecidableEq, Repr

/-- `mergePDFs`: alert and return when fewer than two files are selected
(file list untouched, nothing opened); otherwise merge all inputs in
list order and reset the file list. -/
def mergePDFs {α : Type} (files : List (List α)) : MergeResult α :=
  if files.length < 2 then
    { userError := true, merged := none, finalFiles := files, opened := 0 }
  else
    { userError := false
      merged := some (mergeLoop [] files)
      finalFiles := []
      opened := files.length }

/-- Rotation directions of `rotateFile` / `rotateAllFiles` in the rotate
route. -/
inductive RotateDirection where
  | clockwise
  | counterclockwise
  deriving DecidableEq, Repr

/-- Rotation directions of `rotatePage` in the organize route. -/
inductive PageRotateDirection where
  | cw
  | ccw
  deriving DecidableEq, Repr

/-- The `newRotation` computation shared by `rotateFile`,
`rotateAllFiles` and `rotatePage`: `(rotation + change + 360) % 360`.
On the reachable (nonnegative) operands the JavaScript remainder agrees
with integer Euclidean mod. -/
def newRotation (rotation : Int) (change : Int) : Int :=
  (rotation + change + 360) % 360

/-- The rotation-value update of `rotateFile`: `change` is `90` for
clockwise and `-90` for counterclockwise. -/
def rotateFileStep (rotation : Int) (direction : RotateDirection) : Int :=
  let change : Int := if direction = RotateDirection.clockwise then 90 else -90
  newRotation rotation change

/-- The rotation-value update of `rotatePage`: same formula with the
`cw` / `ccw` direction names. -/
def rotatePageStep (rotation : Int) (direction : PageRotateDirection) : Int :=
  let change : Int := if direction = PageRotateDirection.cw then 90 else -90
  newRotation rotation change

/-- The operations a user can apply to one file's pending rotation
value: a rotation step or `resetRotation` (which writes 0). -/
inductive RotateOp where
  | rotate (direction : RotateDirection)
  | reset
  deriving DecidableEq, Repr

/-- Apply one rotation operation to a rotation value. -/
def applyRotateOp (rotation : Int) : RotateOp → Int
  | RotateOp.rotate direction => rotateFileStep rotation direction
  | RotateOp.reset => 0

/-- Apply a sequence of rotation operations, oldest first. -/
def applyRotateOps (rotation : Int) (ops : List RotateOp) : Int :=
  ops.foldl applyRotateOp rotation

/-- The rotation values representable in the UI. -/
def rotationValues : List Int := [0, 90, 180, 270]

/-- Concrete page on which both render and encode succeed. -/
def okPageA : PageSpec :=
  { origWidth := 100, origHeight := 200, renderOk := true, encodeOk := true }

/-- A second concrete all-good page. -/
def okPageB : PageSpec :=
  { origWidth := 300, origHeight := 150, renderOk := true, encodeOk := true }

/-- Concrete page whose render step fails. -/
def failingPage : PageSpec :=
  { origWidth := 100, origHeight := 100, renderOk := false, encodeOk := true }

/-- Whether a pipeline event is a progress-callback invocation. -/
def isProgressEvent : PipelineEvent → Bool
  | PipelineEvent.progress _ _ => true
  | PipelineEvent.save => false

/-- The blob wrapped by an embedded image. -/
def imageBlob : EmbeddedImage → Blob
  | EmbeddedImage.jpg blob => blob
  | EmbeddedImage.png blob => blob

lemma imageBlob_embedImage (settings : CompressionSettings) (blob : Blob) :
    imageBlob (embedImage settings blob) = blob := by
  unfold embedImage
  split <;> rfl

lemma processPage_eq (settings : CompressionSettings) (page : PageSpec) :
    processPage settings page
      = if pageSucceeds page then
          some (mkCompressedPage settings (renderedImage settings page))
        else none := by
  unfold processPage renderAndCompressPage pageSucceeds
  cases hr : page.renderOk <;> cases he : page.encodeOk <;> simp [hr, he]

lemma compressLoop_eq (settings : CompressionSettings) (total : Nat) (n : Nat)
    (pages : List PageSpec) :
    compressLoop settings total n pages
      = ((pages.filter (fun p => pageSucceeds p)).map
           (fun p => mkCompressedPage settings (renderedImage settings p)),
         (successIndices n pages).map (fun i => PipelineEvent.progress i total)) := by
  induction pages generalizing n with
  | nil => simp [compressLoop, successIndices]
  | cons page rest ih =>
    unfold compressLoop successIndices
    rw [processPage_eq]
    cases hs : pageSucceeds page <;> simp [hs, ih]

lemma saveDoc_compress (pages : List DrawnPage) :
    saveDoc compressSaveOptions pages = pages.map OutputPage.imagePage := by
  simp [saveDoc, compressSaveOptions]

lemma compressPDF_pages_eq (pdfFile : List PageSpec) (mode : CompressionMode) :
    (compressPDF pdfFile mode).pages
      = (pdfFile.filter (fun p => pageSucceeds p)).map
          (fun p => OutputPage.imagePage
            (mkCompressedPage (compressionSettings mode)
              (renderedImage (compressionSettings mode) p))) := by
  simp only [compressPDF, compressLoop_eq, saveDoc_compress, List.map_map]
  rfl

lemma compressPDF_events_eq (pdfFile : List PageSpec) (mode : CompressionMode) :
    (compressPDF pdfFile mode).events
      = (successIndices 1 pdfFile).map
          (fun i => PipelineEvent.progress i pdfFile.length)
        ++ [PipelineEvent.save] := by
  simp only [compressPDF, compressLoop_eq]

lemma successIndices_length (n : Nat) (pages : List PageSpec) :
    (successIndices n pages).length = pages.countP (fun p => pageSucceeds p) := by
  induction pages generalizing n with
  | nil => simp [successIndices]
  | cons page rest ih =>
    unfold successIndices
    cases hs : pageSucceeds page <;> simp [hs, ih, List.countP_cons]

lemma successIndices_ge (n : Nat) (pages : List PageSpec) :
    ∀ i ∈ successIndices n pages, n ≤ i := by
  induction pages generalizing n with
  | nil => intro i hi; simp [successIndices] at hi
  | cons page rest ih =>
    intro i hi
    unfold successIndices at hi
    cases hs : pageSucceeds page
    · rw [hs] at hi
      simp only [Bool.false_eq_true, if_false] at hi
      exact Nat.le_of_succ_le (ih (n + 1) i hi)
    · rw [hs] at hi
      simp only [if_true] at hi
      rcases List.mem_cons.mp hi with rfl | hi2
      · exact Nat.le_refl _
      · exact Nat.le_of_succ_le (ih (n + 1) i hi2)

lemma successIndices_chain (n : Nat) (pages : List PageSpec) :
    List.Chain' (· < ·) (successIndices n pages) := by
  induction pages generalizing n with
  | nil => simp [successIndices]
  | cons page rest ih =>
    unfold successIndices
    cases hs : pageSucceeds page
    · simp only [Bool.false_eq_true, if_false]
      exact ih (n + 1)
    · simp only [if_true]
      rw [List.chain'_cons']
      refine ⟨?_, ih (n + 1)⟩
      intro y hy
      have hmem := List.mem_of_mem_head? hy
      have := successIndices_ge (n + 1) rest y hmem
      omega

lemma successIndices_all (n : Nat) (pages : List PageSpec)
    (h : ∀ p ∈ pages, pageSucceeds p) :
    successIndices n pages = List.range' n pages.length := by
  induction pages generalizing n with
  | nil => simp [successIndices]
  | cons page rest ih =>
    have hp : pageSucceeds page = true := h page (List.mem_cons_self page rest)
    unfold successIndices
    rw [hp]
    simp only [if_true, List.length_cons, List.range'_succ]
    rw [ih (n + 1) (fun p hp2 => h p (List.mem_cons_of_mem _ hp2))]

/-- C1: for every valid N-page input, `compressPDF` outputs exactly the
successfully processed pages, in input order: N pages when every page
renders and encodes, N−K pages when K pages fail, never reordered or
padded. -/
theorem compressPDF_output_pages (pdfFile : List PageSpec) (mode : CompressionMode) :
    (compressPDF pdfFile mode).pages
      = (pdfFile.filter (fun p => pageSucceeds p)).map
          (fun p => OutputPage.imagePage
            (mkCompressedPage (compressionSettings mode)
              (renderedImage (compressionSettings mode) p)))
    ∧ (compressPDF pdfFile mode).pages.length
        = pdfFile.length - pdfFile.countP (fun p => !(pageSucceeds p))
    ∧ ((∀ p ∈ pdfFile, pageSucceeds p) →
        (compressPDF pdfFile mode).pages.length = pdfFile.length) := by
  have hlen : (compressPDF pdfFile mode).pages.length
      = pdfFile.countP (fun p => pageSucceeds p) := by
    rw [compressPDF_pages_eq, List.length_map, ← List.countP_eq_length_filter]
  refine ⟨compressPDF_pages_eq pdfFile mode, ?_, ?_⟩
  · rw [hlen]
    have hsplit : pdfFile.length
        = pdfFile.countP (fun p => pageSucceeds p)
          + pdfFile.countP (fun p => !(pageSucceeds p)) := by
      rw [List.length_eq_countP_add_countP (p := fun p => pageSucceeds p) (l := pdfFile)]
      congr 1
      apply List.countP_congr
      intro a _
      cases h : pageSucceeds a <;> simp [h]
    omega
  · intro hall
    rw [hlen]
    exact List.countP_eq_length.mpr hall

/-- Witness for C1 at a concrete 2-page document whose pages all succeed. -/
theorem compressPDF_output_pages_witness :
    (∀ p ∈ [okPageA, okPageB], pageSucceeds p)
    ∧ (compressPDF [okPageA, okPageB] CompressionMode.normal).pages.length = 2 :=
  ⟨by decide,
   (compressPDF_output_pages [okPageA, okPageB] CompressionMode.normal).2.2 (by decide)⟩

/-- C2 (as frozen) is false on the code: for a 1-page document whose
single page fails to render, the progress callback fires 0 times, not
once per page of the document. -/
theorem compressPDF_progress_count_cex :
    ¬ ((compressPDF [failingPage] CompressionMode.normal).events.countP isProgressEvent
        = [failingPage].length) := by decide

/-- C2 amended: the progress callback fires exactly once per
successfully processed page, with strictly increasing current-page
arguments, the total-pages argument constant at N, and every invocation
strictly before the final save; when every page succeeds this is
exactly N calls with current page running 1..N. -/
theorem compressPDF_progress_events (pdfFile : List PageSpec) (mode : CompressionMode) :
    (compressPDF pdfFile mode).events
      = (successIndices 1 pdfFile).map
          (fun i => PipelineEvent.progress i pdfFile.length)
        ++ [PipelineEvent.save]
    ∧ List.Chain' (· < ·) (successIndices 1 pdfFile)
    ∧ ((∀ p ∈ pdfFile, pageSucceeds p) →
        successIndices 1 pdfFile = List.range' 1 pdfFile.length) :=
  ⟨compressPDF_events_eq pdfFile mode,
   successIndices_chain 1 pdfFile,
   successIndices_all 1 pdfFile⟩

/-- Witness for C2's amended statement at a concrete all-success document. -/
theorem compressPDF_progress_events_witness :
    (∀ p ∈ [okPageA, okPageB], pageSucceeds p)
    ∧ successIndices 1 [okPageA, okPageB] = List.range' 1 2 :=
  ⟨by decide,
   (compressPDF_progress_events [okPageA, okPageB] CompressionMode.normal).2.2 (by decide)⟩

/-- C3: the three presets fix scale in (0,1] and quality in [0,1], with
scale, quality and format determined together by the preset table; the
extreme preset is scale 0.5, jpeg, quality 0.3. -/
theorem compressionSettings_presets :
    (∀ mode : CompressionMode,
        0 < (compressionSettings mode).scale ∧ (compressionSettings mode).scale ≤ 1
          ∧ 0 ≤ (compressionSettings mode).imageQuality
          ∧ (compressionSettings mode).imageQuality ≤ 1)
    ∧ compressionSettings CompressionMode.extreme
        = { imageQuality := 0.3, scale := 0.5, format := ImageFormat.jpeg }
    ∧ compressionSettings CompressionMode.normal
        = { imageQuality := 0.6, scale := 0.7, format := ImageFormat.jpeg }
    ∧ compressionSettings CompressionMode.less
        = { imageQuality := 0.85, scale := 0.9, format := ImageFormat.jpeg } := by
  refine ⟨fun mode => ?_, rfl, rfl, rfl⟩
  cases mode <;>
    exact ⟨by norm_num [compressionSettings], by norm_num [compressionSettings],
           by norm_num [compressionSettings], by norm_num [compressionSettings]⟩

/-- Whether an output page fills itself exactly with its own image:
drawn at origin (0,0), draw size equal to the page size, and the page
size equal to the rendered image dimensions. -/
def pageGeometryOk : OutputPage → Bool
  | OutputPage.imagePage dp =>
      decide (dp.drawX = 0 ∧ dp.drawY = 0
        ∧ dp.drawWidth = dp.pageWidth ∧ dp.drawHeight = dp.pageHeight
        ∧ (imageBlob dp.image).width = dp.pageWidth
        ∧ (imageBlob dp.image).height = dp.pageHeight)
  | OutputPage.blankPage _ _ => false

/-- C5: every page of the reassembled document is sized exactly to its
rendered image's (width, height) and draws that image at origin (0,0)
with exactly the page's width and height — full bleed, no margin, no
aspect correction. -/
theorem compressPDF_page_geometry (pdfFile : List PageSpec) (mode : CompressionMode) :
    (compressPDF pdfFile mode).pages.all pageGeometryOk = true := by
  rw [compressPDF_pages_eq, List.all_eq_true]
  intro op hop
  rw [List.mem_map] at hop
  obtain ⟨p, hp, rfl⟩ := hop
  simp [pageGeometryOk, mkCompressedPage, renderedImage, imageBlob_embedImage]

/-- C7: the output is saved with `useObjectStreams` enabled and
`addDefaultPage` disabled, so an output document with no surviving
pages stays empty. -/
theorem compressPDF_save_options (pdfFile : List PageSpec) (mode : CompressionMode)
    (hfail : ∀ p ∈ pdfFile, pageSucceeds p = false) :
    compressSaveOptions.useObjectStreams = true
    ∧ compressSaveOptions.addDefaultPage = false
    ∧ (compressPDF pdfFile mode).pages = [] := by
  refine ⟨rfl, rfl, ?_⟩
  rw [compressPDF_pages_eq]
  have hnil : pdfFile.filter (fun p => pageSucceeds p) = [] := by
    rw [List.filter_eq_nil_iff]
    intro a ha
    simp [hfail a ha]
  rw [hnil]
  rfl

/-- Witness for C7 at a concrete document whose only page fails. -/
theorem compressPDF_save_options_witness :
    (∀ p ∈ [failingPage], pageSucceeds p = false)
    ∧ (compressPDF [failingPage] CompressionMode.extreme).pages = [] :=
  ⟨by decide,
   (compressPDF_save_options [failingPage] CompressionMode.extreme (by decide)).2.2⟩

/-- Whether an output page embeds its image through the jpeg path. -/
def outputPageIsJpeg : OutputPage → Bool
  | OutputPage.imagePage dp =>
      match dp.image with
      | EmbeddedImage.jpg _ => true
      | EmbeddedImage.png _ => false
  | OutputPage.blankPage _ _ => false

/-- C10: every preset's format is jpeg, so `compressPDF` always embeds
through `embedJpg` and the `embedPng` branch is unreachable: every page
of every output document is a jpeg page. -/
theorem compressPDF_jpeg_only (mode : CompressionMode) (blob : Blob)
    (pdfFile : List PageSpec) :
    (compressionSettings mode).format = ImageFormat.jpeg
    ∧ embedImage (compressionSettings mode) blob = EmbeddedImage.jpg blob
    ∧ (compressPDF pdfFile mode).pages.all outputPageIsJpeg = true := by
  have hfmt : (compressionSettings mode).format = ImageFormat.jpeg := by
    cases mode <;> rfl
  refine ⟨hfmt, ?_, ?_⟩
  · simp [embedImage, hfmt]
  · rw [compressPDF_pages_eq, List.all_eq_true]
    intro op hop
    rw [List.mem_map] at hop
    obtain ⟨p, hp, rfl⟩ := hop
    simp [outputPageIsJpeg, mkCompressedPage, embedImage, hfmt]

lemma compressBatchLoop_statuses (n : Nat) (docs : List BatchDoc) :
    (compressBatchLoop n docs).1
      = docs.map (fun d => if d.ok then FileStatus.completed else FileStatus.error) := by
  induction docs generalizing n with
  | nil => rfl
  | cons d rest ih =>
    unfold compressBatchLoop
    cases hd : d.ok <;> simp [hd, ih]

lemma compressBatchLoop_downloads_ge (n : Nat) (docs : List BatchDoc) :
    ∀ i ∈ (compressBatchLoop n docs).2, n ≤ i := by
  induction docs generalizing n with
  | nil => intro i hi; simp [compressBatchLoop] at hi
  | cons d rest ih =>
    intro i hi
    unfold compressBatchLoop at hi
    cases hd : d.ok
    · rw [hd] at hi
      simp only [Bool.false_eq_true, if_false] at hi
      exact Nat.le_of_succ_le (ih (n + 1) i hi)
    · rw [hd] at hi
      simp only [if_true] at hi
      rcases List.mem_cons.mp hi with rfl | hi2
      · exact Nat.le_refl _
      · exact Nat.le_of_succ_le (ih (n + 1) i hi2)

lemma compressBatchLoop_downloads_mem (docs : List BatchDoc) (n i : Nat)
    (hi : i < docs.length) :
    ((n + i) ∈ (compressBatchLoop n docs).2 ↔ docs[i].ok = true) := by
  induction docs generalizing n i with
  | nil => exact absurd hi (by simp)
  | cons d rest ih =>
    cases i with
    | zero =>
      unfold compressBatchLoop
      cases hd : d.ok
      · simp only [Bool.false_eq_true, if_false, Nat.add_zero, List.getElem_cons_zero, hd]
        constructor
        · intro hmem
          have := compressBatchLoop_downloads_ge (n + 1) rest n hmem
          omega
        · intro hfalse
          exact absurd hfalse (by simp)
      · simp only [if_true, Nat.add_zero, List.getElem_cons_zero, hd]
        simp
    | succ j =>
      have hj : j < rest.length := by simpa using hi
      unfold compressBatchLoop
      have hrec := ih (n + 1) j hj
      have harith : n + (j + 1) = (n + 1) + j := by omega
      cases hd : d.ok
      · simp only [Bool.false_eq_true, if_false, List.getElem_cons_succ]
        rw [harith]
        exact hrec
      · simp only [if_true, List.getElem_cons_succ, List.mem_cons]
        rw [harith]
        constructor
        · intro h
          rcases h with heq | hmem
          · exfalso
            omega
          · exact hrec.mp hmem
        · intro h
          exact Or.inr (hrec.mpr h)

/-- C4: in a multi-document batch, the document at index `i` ends with
status `completed` or `error` according to its own outcome alone, a
failed document is never downloaded, and every queued document is
processed regardless of earlier failures. -/
theorem compress_batch_isolation (docs : List BatchDoc) (i : Nat)
    (hi : i < docs.length) :
    (compressPDFs docs).userError = false
    ∧ (compressPDFs docs).statuses[i]?
        = some (if docs[i].ok then FileStatus.completed else FileStatus.error)
    ∧ (i ∈ (compressPDFs docs).downloads ↔ docs[i].ok = true) := by
  have hne : ¬ docs.length = 0 := by omega
  simp only [compressPDFs, if_neg hne]
  refine ⟨trivial, ?_, ?_⟩
  · rw [compressBatchLoop_statuses]
    rw [List.getElem?_map, List.getElem?_eq_getElem hi]
    rfl
  · have := compressBatchLoop_downloads_mem docs 0 i hi
    simpa using this

/-- A queued document whose compression resolves. -/
def batchOk : BatchDoc := { ok := true }

/-- A queued document whose compression throws. -/
def batchBad : BatchDoc := { ok := false }

/-- Witness for C4: a 2-document batch whose first document fails. -/
theorem compress_batch_isolation_witness :
    (0 < [batchBad, batchOk].length)
    ∧ ((compressPDFs [batchBad, batchOk]).userError = false
       ∧ (compressPDFs [batchBad, batchOk]).statuses[0]?
           = some (if [batchBad, batchOk][0].ok then FileStatus.completed
                   else FileStatus.error)
       ∧ (0 ∈ (compressPDFs [batchBad, batchOk]).downloads
            ↔ [batchBad, batchOk][0].ok = true)) :=
  ⟨by decide, compress_batch_isolation [batchBad, batchOk] 0 (by decide)⟩

/-- C6: an empty selection for compress, or a selection of fewer than
two files for merge, is rejected synchronously: no document is opened,
nothing is produced, and the file-list state is unchanged. -/
theorem empty_selection_guard :
    ((compressPDFs []).userError = true
      ∧ (compressPDFs []).statuses = []
      ∧ (compressPDFs []).downloads = []
      ∧ (compressPDFs []).opened = 0)
    ∧ ∀ (α : Type) (files : List (List α)), files.length < 2 →
        (mergePDFs files).userError = true
        ∧ (mergePDFs files).merged = none
        ∧ (mergePDFs files).finalFiles = files
        ∧ (mergePDFs files).opened = 0 := by
  refine ⟨⟨rfl, rfl, rfl, rfl⟩, ?_⟩
  intro α files h
  unfold mergePDFs
  rw [if_pos h]
  exact ⟨rfl, rfl, rfl, rfl⟩

/-- Witness for C6: a single-file merge selection is rejected. -/
theorem empty_selection_guard_witness :
    ([[0]] : List (List Nat)).length < 2
    ∧ (mergePDFs ([[0]] : List (List Nat))).userError = true :=
  ⟨by decide, (empty_selection_guard.2 Nat [[0]] (by decide)).1⟩

lemma filterMap_getElem_range {α : Type} (pdf : List α) :
    (List.range pdf.length).filterMap (fun i => pdf[i]?) = pdf := by
  induction pdf with
  | nil => rfl
  | cons a l ih =>
    simp only [List.length_cons, List.range_succ_eq_map, List.filterMap_cons,
      List.getElem?_cons_zero, List.filterMap_map]
    have hcomp : ((fun i => (a :: l)[i]?) ∘ Nat.succ) = (fun i => l[i]?) := by
      funext i
      simp
    rw [hcomp, ih]

lemma copyPages_getPageIndices {α : Type} (pdf : List α) :
    copyPages pdf (getPageIndices pdf) = pdf := by
  unfold copyPages getPageIndices
  exact filterMap_getElem_range pdf

lemma foldl_addPage {α : Type} (pages : List α) (acc : List α) :
    pages.foldl addPage acc = acc ++ pages := by
  induction pages generalizing acc with
  | nil => simp
  | cons p rest ih =>
    simp [List.foldl_cons, addPage, ih]

lemma mergeLoop_eq {α : Type} (files : List (List α)) (acc : List α) :
    mergeLoop acc files = acc ++ files.flatten := by
  induction files generalizing acc with
  | nil => simp [mergeLoop]
  | cons pdf rest ih =>
    simp only [mergeLoop, copyPages_getPageIndices, foldl_addPage, ih]
    simp

/-- C8: merging at least two documents yields one document that is the
concatenation of all input documents' pages, in input order, with page
count the sum of the inputs' page counts. -/
theorem mergePDFs_concat {α : Type} (files : List (List α)) (h : 2 ≤ files.length) :
    (mergePDFs files).userError = false
    ∧ (mergePDFs files).merged = some files.flatten
    ∧ files.flatten.length = (files.map List.length).sum := by
  have hnot : ¬ files.length < 2 := by omega
  unfold mergePDFs
  rw [if_neg hnot]
  refine ⟨rfl, ?_, ?_⟩
  · rw [mergeLoop_eq]
    simp
  · simp

/-- Witness for C8: merging two concrete documents concatenates them. -/
theorem mergePDFs_concat_witness :
    2 ≤ ([[0], [1, 2]] : List (List Nat)).length
    ∧ (mergePDFs ([[0], [1, 2]] : List (List Nat))).merged = some [0, 1, 2] :=
  ⟨by decide, by simpa using (mergePDFs_concat ([[0], [1, 2]] : List (List Nat)) (by decide)).2.1⟩

lemma applyRotateOp_mem (r : Int) (hr : r ∈ rotationValues) (op : RotateOp) :
    applyRotateOp r op ∈ rotationValues := by
  cases op with
  | rotate d =>
    simp only [rotationValues, List.mem_cons, List.not_mem_nil, or_false] at hr
    rcases hr with rfl | rfl | rfl | rfl <;> cases d <;> decide
  | reset => simp [applyRotateOp, rotationValues]

/-- C9: a file's pending rotation starts at 0 and stays in
{0, 90, 180, 270} under any sequence of clockwise, counterclockwise and
reset operations; clockwise then counterclockwise is the identity on
any such value; and `rotatePage` performs the same update as
`rotateFile`. -/
theorem rotation_invariant (ops : List RotateOp) (r : Int) (hr : r ∈ rotationValues) :
    applyRotateOps 0 ops ∈ rotationValues
    ∧ rotateFileStep (rotateFileStep r RotateDirection.clockwise)
        RotateDirection.counterclockwise = r
    ∧ (∀ s : Int,
        rotatePageStep s PageRotateDirection.cw
            = rotateFileStep s RotateDirection.clockwise
        ∧ rotatePageStep s PageRotateDirection.ccw
            = rotateFileStep s RotateDirection.counterclockwise) := by
  refine ⟨?_, ?_, fun s => ⟨rfl, rfl⟩⟩
  · have key : ∀ (ops2 : List RotateOp) (r0 : Int), r0 ∈ rotationValues →
        applyRotateOps r0 ops2 ∈ rotationValues := by
      intro ops2
      induction ops2 with
      | nil =>
        intro r0 h0
        simpa [applyRotateOps] using h0
      | cons op rest ih =>
        intro r0 h0
        simp only [applyRotateOps, List.foldl_cons]
        exact ih (applyRotateOp r0 op) (applyRotateOp_mem r0 h0 op)
    exact key ops 0 (by decide)
  · simp only [rotationValues, List.mem_cons, List.not_mem_nil, or_false] at hr
    rcases hr with rfl | rfl | rfl | rfl <;> decide

/-- Witness for C9 at a concrete operation sequence and rotation value. -/
theorem rotation_invariant_witness :
    (90 : Int) ∈ rotationValues
    ∧ applyRotateOps 0 [RotateOp.rotate RotateDirection.clockwise] ∈ rotationValues :=
  ⟨by decide, (rotation_invariant [RotateOp.rotate RotateDirection.clockwise] 90 (by decide)).1⟩
